import Mathlib

/-!
Shallow embedding of the GitHub pull-request reconciliation engine of the
updatecli repository (package `github`, pull-request action code).

Pure data and control flow are translated from the Go source.  Remote
GraphQL interactions are modelled by an environment record (`GithubEnv`)
holding the platform's responses, and every issued query or mutation is
recorded in an interaction trace (`List Interaction`), so that theorems can
speak about which remote calls a flow performs.  Go `error` values are
modelled as `Except String`, the `String` being the error message.
-/

set_option maxRecDepth 8000

/-- Subset of the GitHub client configuration (`Github.Spec`) read by the
embedded functions: repository owner, repository name and configured branch. -/
structure GithubSpec where
  Owner : String
  Repository : String
  Branch : String

/-- Model of the `Github` handler: only the fields read by the embedded
functions are kept.  `sanitizeBranchName` stands for the external
`nativeGitHandler.SanitizeBranchName` collaborator. -/
structure Github where
  Spec : GithubSpec
  pipelineID : String
  workingBranch : Bool
  sanitizeBranchName : String → String

/-- Source `GetBranches` translated from the source: all three branches default to
the configured branch and the working branch gets a sanitized
`updatecli_<target>_<pipelineID>` name when a pipeline id is set and the
working-branch mode is enabled. -/
def Github.GetBranches (g : Github) : String × String × String :=
  let sourceBranch := g.Spec.Branch
  let workingBranch := g.Spec.Branch
  let targetBranch := g.Spec.Branch
  if g.pipelineID.length > 0 && g.workingBranch then
    (sourceBranch, g.sanitizeBranchName ("updatecli_" ++ targetBranch ++ "_" ++ g.pipelineID), targetBranch)
  else
    (sourceBranch, workingBranch, targetBranch)

/-- Source `PullRequestApi`: pull request fields mapped to the GitHub V4 api. -/
structure PullRequestApi where
  ChangedFiles : Int
  BaseRefName : String
  Body : String
  HeadRefName : String
  ID : String
  State : String
  Title : String
  Url : String
  Number : Int
deriving DecidableEq

/-- Source `ActionSpec`: configuration of an action of type GitHub Pull Request. -/
structure ActionSpec where
  AutoMerge : Bool
  Title : String
  Description : String
  Labels : List String
  Draft : Bool
  MaintainerCannotModify : Bool
  MergeMethod : String
  UseTitleForAutoMerge : Bool
  Parent : Bool
deriving DecidableEq

/-- Model of the `Repository` descriptor produced by `queryRepository` (the
struct is declared outside the provided sources); the fields are exactly the
ones read by the embedded functions. -/
structure Repository where
  ID : String
  Owner : String
  Name : String
  ParentID : String
  ParentOwner : String
  ParentName : String
  Status : String
deriving DecidableEq

/-- Source `repositoryLabelApi`: a repository label as returned by the GitHub api. -/
structure repositoryLabelApi where
  ID : String
  Name : String
  Description : String
deriving DecidableEq

/-- The `PullRequest` action value.  In Go, `repository` is a nil pointer
until assigned; every embedded flow assigns it from the repository query
before reading it, so it is modelled as a plain value initialised to the
zero descriptor. -/
structure PullRequest where
  gh : Github
  Report : String
  Title : String
  spec : ActionSpec
  remotePullRequest : PullRequestApi
  repository : Repository

/-- Error value `ErrAutomergeNotAllowOnRepository` (modulo punctuation of the
message text, which is only compared for equality). -/
def ErrAutomergeNotAllowOnRepository : String :=
  "automerge is not allowed on repository"

/-- Error value `ErrBadMergeMethod`. -/
def ErrBadMergeMethod : String :=
  "wrong merge method defined, accepting one of squash, merge, rebase, or empty"

/-- Error value `ErrPullRequestIsInCleanStatus`. -/
def ErrPullRequestIsInCleanStatus : String :=
  "Pull request Pull request is in clean status"

/-- The fields of `githubv4.CreatePullRequestInput` set by `OpenPullRequest`.
Optional (pointer-typed) fields are modelled with `Option`; `none` means the
field is omitted from the mutation payload. -/
structure CreatePullRequestInput where
  RepositoryID : String
  BaseRefName : String
  HeadRefName : String
  Title : String
  Body : Option String
  MaintainerCanModify : Option Bool
  Draft : Option Bool
  HeadRepositoryID : Option String
deriving DecidableEq

/-- The fields of `githubv4.UpdatePullRequestInput` set by
`updatePullRequest`.  `LabelIDs = none` models the pointer field being left
nil, i.e. omitted from the mutation payload. -/
structure UpdatePullRequestInput where
  PullRequestID : String
  Title : Option String
  Body : Option String
  LabelIDs : Option (List String)
deriving DecidableEq

/-- The fields of `githubv4.EnablePullRequestAutoMergeInput` set by
`EnablePullRequestAutoMerge`; `none` models an omitted optional field. -/
structure EnablePullRequestAutoMergeInput where
  PullRequestID : String
  MergeMethod : Option String
  CommitHeadline : Option String
deriving DecidableEq

/-- The two `PageInfo` fields read by the label pagination loop. -/
structure PageInfo where
  HasPreviousPage : Bool
  StartCursor : String
deriving DecidableEq

/-- A label node of the pull-request label query result. -/
structure LabelNode where
  ID : String
  Name : String
  Description : String
deriving DecidableEq

/-- An edge of the pull-request label query result. -/
structure LabelEdge where
  Cursor : String
  Node : LabelNode
deriving DecidableEq

/-- One page of the pull-request label query result. -/
structure LabelsPage where
  TotalCount : Int
  PageInfo : PageInfo
  Edges : List LabelEdge
deriving DecidableEq

/-- A remote interaction issued by the engine: each GraphQL query or
mutation performed by the embedded functions, with the request data the
claims are about. -/
inductive Interaction where
  | queryRepository : Interaction
  | queryPullRequests (owner name baseRefName headRefName : String) : Interaction
  | queryRepositoryLabels : Interaction
  | queryPullRequestLabels (owner name : String) (number : Int) (before : Option String) : Interaction
  | queryAutoMergeAllowed (owner name : String) : Interaction
  | mutateCreatePullRequest (input : CreatePullRequestInput) : Interaction
  | mutateUpdatePullRequest (input : UpdatePullRequestInput) : Interaction
  | mutateClosePullRequest (pullRequestID : String) : Interaction
  | mutateEnablePullRequestAutoMerge (input : EnablePullRequestAutoMergeInput) : Interaction
  | addComment (pullRequestID : String) (body : String) : Interaction
deriving DecidableEq

/-- True exactly on the create-pull-request mutation. -/
def Interaction.isCreateMutation : Interaction → Bool
  | .mutateCreatePullRequest _ => true
  | _ => false

/-- True exactly on the update-pull-request mutation. -/
def Interaction.isUpdateMutation : Interaction → Bool
  | .mutateUpdatePullRequest _ => true
  | _ => false

/-- True exactly on the close-pull-request mutation. -/
def Interaction.isCloseMutation : Interaction → Bool
  | .mutateClosePullRequest _ => true
  | _ => false

/-- True exactly on the enable-auto-merge mutation. -/
def Interaction.isEnableAutoMergeMutation : Interaction → Bool
  | .mutateEnablePullRequestAutoMerge _ => true
  | _ => false

/-- The remote platform and external collaborators, modelled as the
responses the engine observes: results of the repository query, of the
pull-request query, of the body generator (`utils.GeneratePullRequestBody`),
of the report body merger (`reports.MergeFromString`), of the repository
label catalog query (`getRepositoryLabels`), the successive responses of the
paginated pull-request label query, the auto-merge allowance query, each
mutation, and the closure comment (`addComment`). -/
structure GithubEnv where
  queryRepositoryResult : Except String Repository
  pullRequestNodes : Except String (List PullRequestApi)
  generatePullRequestBody : String → String → Except String String
  mergeFromString : String → String → String
  repositoryLabels : Except String (List repositoryLabelApi)
  labelPageResponses : List (Except String LabelsPage)
  autoMergeAllowed : Except String Bool
  createResult : Except String PullRequestApi
  updateResult : Except String PullRequestApi
  closeResult : Except String PullRequestApi
  enableAutoMergeResult : Except String PullRequestApi
  addCommentResult : Except String Unit

/-- Character-wise upper-casing, modelling `strings.ToUpper` on the ASCII
merge-method strings this code compares. -/
def toUpperStr (s : String) : String :=
  String.mk (s.data.map Char.toUpper)

/-- Case-insensitive string equality, modelling `strings.EqualFold` on the
ASCII merge-method strings used by this code. -/
def equalFold (a b : String) : Bool :=
  toUpperStr a == toUpperStr b

/-- Source `isMergeMethodValid` translated from the source: the empty string and
the (case-insensitive) methods squash, merge and rebase are valid, anything
else yields `ErrBadMergeMethod`. -/
def isMergeMethodValid (method : String) : Bool × Option String :=
  if method.length == 0 ||
      toUpperStr method == "SQUASH" ||
      toUpperStr method == "MERGE" ||
      toUpperStr method == "REBASE" then
    (true, none)
  else
    (false, some ErrBadMergeMethod)

/-- Source `ActionSpec.Validate` translated from the source: fails exactly when
`isMergeMethodValid` reports an error. -/
def ActionSpec.Validate (s : ActionSpec) : Option String :=
  match (isMergeMethodValid s.MergeMethod).2 with
  | some err => some err
  | none => none

/-- Zero value of `PullRequestApi` (Go zero struct). -/
def zeroPullRequestApi : PullRequestApi :=
  { ChangedFiles := 0, BaseRefName := "", Body := "", HeadRefName := "",
    ID := "", State := "", Title := "", Url := "", Number := 0 }

/-- Zero value of `Repository` (Go zero struct). -/
def zeroRepository : Repository :=
  { ID := "", Owner := "", Name := "", ParentID := "", ParentOwner := "",
    ParentName := "", Status := "" }

/-- Source `NewAction` translated from the source: validates the spec and returns
the action value together with the validation error (if any).  `NewAction`
performs no remote interaction: it takes no environment and emits no trace. -/
def NewAction (spec : ActionSpec) (gh : Github) : PullRequest × Option String :=
  ({ gh := gh, Report := "", Title := "", spec := spec,
     remotePullRequest := zeroPullRequestApi, repository := zeroRepository },
   spec.Validate)

/-- Source `isAhead` translated from the source. -/
def PullRequest.isAhead (p : PullRequest) : Bool :=
  p.repository.Status == "AHEAD"

/-- The labels carried by one page of the pull-request label query, in edge
order, as accumulated by `GetPullRequestLabelsInformation`. -/
def pageLabels (page : LabelsPage) : List repositoryLabelApi :=
  page.Edges.map (fun e => { ID := e.Node.ID, Name := e.Node.Name, Description := e.Node.Description })

/-- The pagination loop of `GetPullRequestLabelsInformation`, translated
from the source.  The first argument is the list of successive platform
responses to the label query; the second is the current `before` cursor
(initially nil); the third is the accumulator `pullRequestLabels`.  Each
iteration consumes one response: on a query error the loop returns the
error; otherwise it appends the page's labels, stops if the page reports no
previous page, and otherwise re-queries with `before` moved to the page's
start cursor.  The returned list records the `before` cursor of every query
issued.  The empty-response case models the platform failing to answer,
which is outside the behaviour the source can observe. -/
def labelsLoop : List (Except String LabelsPage) → Option String → List repositoryLabelApi →
    Except String (List repositoryLabelApi) × List (Option String)
  | [], before, _ => (Except.error "no platform response", [before])
  | resp :: rest, before, acc =>
    match resp with
    | Except.error e => (Except.error e, [before])
    | Except.ok page =>
      if page.PageInfo.HasPreviousPage then
        match labelsLoop rest (some page.PageInfo.StartCursor) (acc ++ pageLabels page) with
        | (res, cursors) => (res, before :: cursors)
      else
        (Except.ok (acc ++ pageLabels page), [before])

/-- Source `GetPullRequestLabelsInformation` translated from the source: the query
addresses the parent repository owner and name when `spec.Parent` is set,
and runs the pagination loop starting from a nil `before` cursor.  The trace
records one label query per loop iteration, with the cursor it used. -/
def GetPullRequestLabelsInformation (p : PullRequest) (env : GithubEnv) :
    Except String (List repositoryLabelApi) × List Interaction :=
  let owner := if p.spec.Parent then p.repository.ParentOwner else p.repository.Owner
  let repo := if p.spec.Parent then p.repository.ParentName else p.repository.Name
  match labelsLoop env.labelPageResponses none [] with
  | (res, cursors) =>
    (res, cursors.map (fun c => Interaction.queryPullRequestLabels owner repo p.remotePullRequest.Number c))

/-- The matching-label computation of `updatePullRequest` (source lines
317 to 324), translated from the nested loops: for each desired label name in
order, every catalog label with that exact name is appended. -/
def matchingLabels : List String → List repositoryLabelApi → List repositoryLabelApi
  | [], _ => []
  | l :: rest, repositoryLabels =>
    repositoryLabels.filter (fun r => l == r.Name) ++ matchingLabels rest repositoryLabels

/-- Modelled from the spec: `mergeLabels` is called by `updatePullRequest`
but defined outside the provided sources.  Spec section 4.2 specifies the
computed label set as the union of the matching catalog labels and the
labels already attached to the pull request (synchronization is additive
only). -/
def mergeLabels (matching remote : List repositoryLabelApi) : List repositoryLabelApi :=
  matching ++ remote.filter (fun r => decide (r ∉ matching))

/-- Source `updatePullRequest` translated from the source: generate the body,
fetch the repository label catalog, compute the matching labels, fetch the
labels already attached to the pull request (paginated), merge both lists,
and issue the update mutation.  The `LabelIDs` field of the input is set
only when the configured label list is non-empty; otherwise it is left nil
(omitted from the payload). -/
def updatePullRequest (p : PullRequest) (env : GithubEnv) :
    Except String Unit × List Interaction :=
  let title := p.Title
  match env.generatePullRequestBody p.spec.Description p.Report with
  | Except.error e => (Except.error e, [])
  | Except.ok bodyPR =>
    match env.repositoryLabels with
    | Except.error e => (Except.error e, [Interaction.queryRepositoryLabels])
    | Except.ok repoLabels =>
      let matching := matchingLabels p.spec.Labels repoLabels
      match GetPullRequestLabelsInformation p env with
      | (Except.error e, tq) => (Except.error e, Interaction.queryRepositoryLabels :: tq)
      | (Except.ok remotePRLabels, tq) =>
        let labelsID := (mergeLabels matching remotePRLabels).map (fun l => l.ID)
        let input : UpdatePullRequestInput :=
          { PullRequestID := p.remotePullRequest.ID
            Title := some title
            Body := some bodyPR
            LabelIDs := if p.spec.Labels.length != 0 then some labelsID else none }
        match env.updateResult with
        | Except.error e =>
          (Except.error e, Interaction.queryRepositoryLabels :: tq ++ [Interaction.mutateUpdatePullRequest input])
        | Except.ok _ =>
          (Except.ok (), Interaction.queryRepositoryLabels :: tq ++ [Interaction.mutateUpdatePullRequest input])

/-- Source `closePullRequest` translated from the source: issue the close
mutation; on success, post the explanatory comment, and swallow a comment
failure (it is only logged): the function still returns success. -/
def closePullRequest (p : PullRequest) (env : GithubEnv) :
    Except String Unit × List Interaction :=
  match env.closeResult with
  | Except.error e => (Except.error e, [Interaction.mutateClosePullRequest p.remotePullRequest.ID])
  | Except.ok _ =>
    let msg := "Pull request closed as no changed file detected"
    match env.addCommentResult with
    | Except.error _ =>
      (Except.ok (), [Interaction.mutateClosePullRequest p.remotePullRequest.ID,
                      Interaction.addComment p.remotePullRequest.ID msg])
    | Except.ok _ =>
      (Except.ok (), [Interaction.mutateClosePullRequest p.remotePullRequest.ID,
                      Interaction.addComment p.remotePullRequest.ID msg])

/-- Source `OpenPullRequest` translated from the source: generate the body, then
return without any mutation when the branch is not ahead; otherwise issue
the create mutation, targeting the parent repository (with the fork as head
repository) when `spec.Parent` is set, and record the created pull request. -/
def OpenPullRequest (p : PullRequest) (env : GithubEnv) :
    Except String PullRequest × List Interaction :=
  match env.generatePullRequestBody p.spec.Description p.Report with
  | Except.error e => (Except.error e, [])
  | Except.ok bodyPR =>
    let branches := p.gh.GetBranches
    let workingBranch := branches.2.1
    let targetBranch := branches.2.2
    if !p.isAhead then
      (Except.ok p, [])
    else
      let input : CreatePullRequestInput :=
        { RepositoryID := if p.spec.Parent then p.repository.ParentID else p.repository.ID
          BaseRefName := targetBranch
          HeadRefName := workingBranch
          Title := p.Title
          Body := some bodyPR
          MaintainerCanModify := some (!p.spec.MaintainerCannotModify)
          Draft := some p.spec.Draft
          HeadRepositoryID := if p.spec.Parent then some p.repository.ID else none }
      match env.createResult with
      | Except.error e => (Except.error e, [Interaction.mutateCreatePullRequest input])
      | Except.ok pr =>
        (Except.ok { p with remotePullRequest := pr }, [Interaction.mutateCreatePullRequest input])

/-- Source `isAutoMergedEnabledOnRepository` translated from the source: one
repository query, addressed at the configured owner and repository name. -/
def isAutoMergedEnabledOnRepository (p : PullRequest) (env : GithubEnv) :
    Except String Bool × List Interaction :=
  let q := Interaction.queryAutoMergeAllowed p.gh.Spec.Owner p.gh.Spec.Repository
  match env.autoMergeAllowed with
  | Except.error e => (Except.error e, [q])
  | Except.ok b => (Except.ok b, [q])

/-- Source `EnablePullRequestAutoMerge` translated from the source: first check the
repository-level allowance; fail without any mutation if the check errors or
reports false.  Otherwise build the input: the merge method (upper-cased) is
set only when non-empty, and when `UseTitleForAutoMerge` is set the commit
headline is the title followed by the pull-request number for a squash
merge, the bare title for a rebase merge, and is left unset otherwise. -/
def EnablePullRequestAutoMerge (p : PullRequest) (env : GithubEnv) :
    Except String Unit × List Interaction :=
  match isAutoMergedEnabledOnRepository p env with
  | (Except.error e, t) => (Except.error e, t)
  | (Except.ok autoMergeAllowed, t) =>
    if !autoMergeAllowed then
      (Except.error ErrAutomergeNotAllowOnRepository, t)
    else
      let mergeMethod := if p.spec.MergeMethod.length > 0 then some (toUpperStr p.spec.MergeMethod) else none
      let headline :=
        if p.spec.UseTitleForAutoMerge then
          if equalFold p.spec.MergeMethod "squash" then
            some (p.Title ++ " (#" ++ toString p.remotePullRequest.Number ++ ")")
          else if equalFold p.spec.MergeMethod "rebase" then
            some p.Title
          else
            none
        else
          none
      let input : EnablePullRequestAutoMergeInput :=
        { PullRequestID := p.remotePullRequest.ID
          MergeMethod := mergeMethod
          CommitHeadline := headline }
      match env.enableAutoMergeResult with
      | Except.error e => (Except.error e, t ++ [Interaction.mutateEnablePullRequestAutoMerge input])
      | Except.ok _ => (Except.ok (), t ++ [Interaction.mutateEnablePullRequestAutoMerge input])

/-- Source `getRemotePullRequest` translated from the source: one pull-request
query addressed at the parent repository owner and name when `spec.Parent`
is set, keyed by the target branch (base) and working branch (head).  When
no node is returned the state is unchanged; otherwise the first node becomes
the remote pull request and, unless `resetBody` is set, its body is merged
into the report. -/
def getRemotePullRequest (p : PullRequest) (env : GithubEnv) (resetBody : Bool) :
    Except String PullRequest × List Interaction :=
  let owner := if p.spec.Parent then p.repository.ParentOwner else p.repository.Owner
  let name := if p.spec.Parent then p.repository.ParentName else p.repository.Name
  let branches := p.gh.GetBranches
  let workingBranch := branches.2.1
  let targetBranch := branches.2.2
  let q := Interaction.queryPullRequests owner name targetBranch workingBranch
  match env.pullRequestNodes with
  | Except.error e => (Except.error e, [q])
  | Except.ok nodes =>
    match nodes with
    | [] => (Except.ok p, [q])
    | pr :: _ =>
      let report := if resetBody then p.Report else env.mergeFromString pr.Body p.Report
      (Except.ok { p with remotePullRequest := pr, Report := report }, [q])

/-- Model of `reports.Action` (external package): the two values of it this
code reads, the report title and the output of `report.ToActionsString()`. -/
structure ReportAction where
  Title : String
  actionsString : String

/-- Source `CleanAction` translated from the source: resolve the repository, look
up the existing pull request; nothing to do when none exists; close it when
it has no changed file; succeed otherwise. -/
def CleanAction (p0 : PullRequest) (env : GithubEnv) (_report : ReportAction) :
    Except String Unit × List Interaction :=
  match env.queryRepositoryResult with
  | Except.error e => (Except.error e, [Interaction.queryRepository])
  | Except.ok repository =>
    let p := { p0 with repository := repository }
    match getRemotePullRequest p env false with
    | (Except.error e, t1) => (Except.error e, Interaction.queryRepository :: t1)
    | (Except.ok p1, t1) =>
      if p1.remotePullRequest.ID == "" then
        (Except.ok (), Interaction.queryRepository :: t1)
      else if p1.remotePullRequest.ChangedFiles == 0 then
        match closePullRequest p1 env with
        | (r, t2) => (r, Interaction.queryRepository :: t1 ++ t2)
      else
        (Except.ok (), Interaction.queryRepository :: t1)

/-- Source `CreateAction` translated from the source: set the report and the title
(the configured title wins over the report title), resolve the repository,
look up the existing pull request (merging bodies unless resetting), create
a pull request when none exists, unconditionally update it, then return
successfully when the branch is not ahead, close the pull request when it
has no changed file, and enable auto-merge when requested. -/
def CreateAction (p0 : PullRequest) (env : GithubEnv) (report : ReportAction)
    (resetDescription : Bool) : Except String Unit × List Interaction :=
  let pa := { p0 with Report := report.actionsString,
                      Title := if p0.spec.Title != "" then p0.spec.Title else report.Title }
  match env.queryRepositoryResult with
  | Except.error e => (Except.error e, [Interaction.queryRepository])
  | Except.ok repository =>
    let p := { pa with repository := repository }
    match getRemotePullRequest p env resetDescription with
    | (Except.error e, t1) => (Except.error e, Interaction.queryRepository :: t1)
    | (Except.ok p1, t1) =>
      match (if p1.remotePullRequest.ID.length == 0 then OpenPullRequest p1 env else (Except.ok p1, [])) with
      | (Except.error e, t2) => (Except.error e, Interaction.queryRepository :: t1 ++ t2)
      | (Except.ok p2, t2) =>
        match updatePullRequest p2 env with
        | (Except.error e, t3) => (Except.error e, Interaction.queryRepository :: t1 ++ t2 ++ t3)
        | (Except.ok _, t3) =>
          let base := Interaction.queryRepository :: t1 ++ t2 ++ t3
          if !p2.isAhead then
            (Except.ok (), base)
          else if p2.remotePullRequest.ChangedFiles == 0 then
            match closePullRequest p2 env with
            | (r, t4) => (r, base ++ t4)
          else if p2.spec.AutoMerge then
            match EnablePullRequestAutoMerge p2 env with
            | (Except.error e, t4) => (Except.error e, base ++ t4)
            | (Except.ok _, t4) => (Except.ok (), base ++ t4)
          else
            (Except.ok (), base)

/-- Concrete exemplar GitHub handler used to evaluate the embedding. -/
def ghEx : Github :=
  { Spec := { Owner := "olblak", Repository := "charts", Branch := "main" },
    pipelineID := "", workingBranch := false, sanitizeBranchName := fun s => s }

/-- Concrete exemplar action configuration (all zero values). -/
def specEx : ActionSpec :=
  { AutoMerge := false, Title := "", Description := "", Labels := [], Draft := false,
    MaintainerCannotModify := false, MergeMethod := "", UseTitleForAutoMerge := false,
    Parent := false }

/-- Concrete exemplar repository descriptor of a fork that is ahead. -/
def repoEx : Repository :=
  { ID := "RepoID", Owner := "olblak", Name := "charts", ParentID := "ParentRepoID",
    ParentOwner := "upstream", ParentName := "charts", Status := "AHEAD" }

/-- Concrete exemplar repository descriptor whose branch is behind. -/
def repoBehind : Repository :=
  { repoEx with Status := "BEHIND" }

/-- Concrete exemplar remote pull request with changed files. -/
def prEx : PullRequestApi :=
  { ChangedFiles := 2, BaseRefName := "main", Body := "old body", HeadRefName := "main",
    ID := "PR_1", State := "OPEN", Title := "old title", Url := "http://pr1", Number := 4 }

/-- Concrete exemplar remote pull request with no changed file. -/
def prZero : PullRequestApi :=
  { prEx with ID := "PR_0", ChangedFiles := 0 }

/-- Concrete exemplar: the final (cursor-exhausted) label page. -/
def pageDone : LabelsPage :=
  { TotalCount := 0, PageInfo := { HasPreviousPage := false, StartCursor := "" }, Edges := [] }

/-- Concrete exemplar label. -/
def labelA : repositoryLabelApi :=
  { ID := "L1", Name := "dependencies", Description := "dep" }

/-- Concrete exemplar label. -/
def labelB : repositoryLabelApi :=
  { ID := "L2", Name := "enhancement", Description := "enh" }

/-- Concrete exemplar label. -/
def labelC : repositoryLabelApi :=
  { ID := "L3", Name := "bug", Description := "bug" }

/-- Concrete exemplar label page holding `labelA`, with a previous page. -/
def pageA : LabelsPage :=
  { TotalCount := 3, PageInfo := { HasPreviousPage := true, StartCursor := "cursorA" },
    Edges := [{ Cursor := "eA", Node := { ID := "L1", Name := "dependencies", Description := "dep" } }] }

/-- Concrete exemplar label page holding `labelB`, with a previous page. -/
def pageB : LabelsPage :=
  { TotalCount := 3, PageInfo := { HasPreviousPage := true, StartCursor := "cursorB" },
    Edges := [{ Cursor := "eB", Node := { ID := "L2", Name := "enhancement", Description := "enh" } }] }

/-- Concrete exemplar label page holding `labelC`, reporting no previous page. -/
def pageC : LabelsPage :=
  { TotalCount := 3, PageInfo := { HasPreviousPage := false, StartCursor := "cursorC" },
    Edges := [{ Cursor := "eC", Node := { ID := "L3", Name := "bug", Description := "bug" } }] }

/-- Concrete exemplar three-page label listing. -/
def pages3 : List LabelsPage := [pageA, pageB, pageC]

/-- Concrete exemplar environment: every remote call succeeds, the branch is
ahead, no existing pull request, empty label catalog, one exhausted label
page. -/
def envBase : GithubEnv :=
  { queryRepositoryResult := Except.ok repoEx
    pullRequestNodes := Except.ok []
    generatePullRequestBody := fun _ r => Except.ok r
    mergeFromString := fun _ new => new
    repositoryLabels := Except.ok []
    labelPageResponses := [Except.ok pageDone]
    autoMergeAllowed := Except.ok true
    createResult := Except.ok prEx
    updateResult := Except.ok prEx
    closeResult := Except.ok prEx
    enableAutoMergeResult := Except.ok prEx
    addCommentResult := Except.ok () }

/-- Concrete exemplar pull-request action state with resolved repository. -/
def pEx : PullRequest :=
  { gh := ghEx, Report := "R", Title := "T", spec := specEx,
    remotePullRequest := prEx, repository := repoEx }

/-- Concrete exemplar action state as returned by `NewAction`. -/
def pStart : PullRequest := (NewAction specEx ghEx).1

/-- Concrete exemplar report. -/
def reportEx : ReportAction := { Title := "Bump x to 2.0", actionsString := "report body" }

/-- Concrete exemplar action state targeting the parent of the fork. -/
def pParent : PullRequest :=
  { pEx with spec := { specEx with Parent := true } }

/-- Concrete exemplar action state configured for a squash auto-merge using
the title as commit headline, on pull request number 42. -/
def pSquash : PullRequest :=
  { pEx with Title := "Bump x to 2.0",
             spec := { specEx with MergeMethod := "squash", UseTitleForAutoMerge := true },
             remotePullRequest := { prEx with Number := 42 } }

/-- The create input issued by `OpenPullRequest pParent envBase`. -/
def inpParentCreate : CreatePullRequestInput :=
  { RepositoryID := "ParentRepoID", BaseRefName := "main", HeadRefName := "main",
    Title := "T", Body := some "R", MaintainerCanModify := some true,
    Draft := some false, HeadRepositoryID := some "RepoID" }

/-- Concrete exemplar environment for the zero-diff close scenario: the
branch is ahead, the existing pull request has no changed file, and the
explanatory comment fails. -/
def envClean : GithubEnv :=
  { envBase with pullRequestNodes := Except.ok [prZero],
                 addCommentResult := Except.error "comment failed" }

/-- Concrete exemplar environment whose branch is behind while the existing
pull request has no changed file. -/
def envNotAheadZeroDiff : GithubEnv :=
  { envBase with queryRepositoryResult := Except.ok repoBehind,
                 pullRequestNodes := Except.ok [prZero] }

/-- The create input issued by `CreateAction pStart envBase reportEx false`. -/
def inpCreateEx : CreatePullRequestInput :=
  { RepositoryID := "RepoID", BaseRefName := "main", HeadRefName := "main",
    Title := "Bump x to 2.0", Body := some "report body",
    MaintainerCanModify := some true, Draft := some false, HeadRepositoryID := none }

/-- The update input issued by `CreateAction pStart envBase reportEx false`. -/
def inpUpdateEx : UpdatePullRequestInput :=
  { PullRequestID := "PR_1", Title := some "Bump x to 2.0",
    Body := some "report body", LabelIDs := none }

/-- Classification of every interaction `CreateAction` can emit: each
remote call it performs, where a create or update mutation always carries
the title computed at the start of `CreateAction` (the configured title when
non-empty, the report title otherwise). -/
def CreateActionTraceClass (p0 : PullRequest) (report : ReportAction) (i : Interaction) : Prop :=
  i = Interaction.queryRepository ∨
  (∃ o n b hd, i = Interaction.queryPullRequests o n b hd) ∨
  (∃ inp, i = Interaction.mutateCreatePullRequest inp ∧
    inp.Title = (if (p0.spec.Title != "") = true then p0.spec.Title else report.Title)) ∨
  i = Interaction.queryRepositoryLabels ∨
  (∃ o n nb c, i = Interaction.queryPullRequestLabels o n nb c) ∨
  (∃ inp, i = Interaction.mutateUpdatePullRequest inp ∧
    inp.Title = some (if (p0.spec.Title != "") = true then p0.spec.Title else report.Title)) ∨
  (∃ d, i = Interaction.mutateClosePullRequest d) ∨
  (∃ d b, i = Interaction.addComment d b) ∨
  (∃ o n, i = Interaction.queryAutoMergeAllowed o n) ∨
  (∃ inp, i = Interaction.mutateEnablePullRequestAutoMerge inp)

lemma string_length_eq_zero (s : String) : s.length = 0 ↔ s = "" := by
  cases s with
  | mk data =>
    constructor
    · intro h
      have h2 : data.length = 0 := h
      have h3 : data = [] := List.length_eq_zero.mp h2
      rw [h3]
    · intro h
      rw [h]
      rfl

lemma mem_matchingLabels (desired : List String) (catalog : List repositoryLabelApi)
    (l : repositoryLabelApi) :
    l ∈ matchingLabels desired catalog ↔ l ∈ catalog ∧ l.Name ∈ desired := by
  induction desired with
  | nil => simp [matchingLabels]
  | cons n rest ih =>
    simp only [matchingLabels, List.mem_append, List.mem_filter, List.mem_cons, ih, beq_iff_eq]
    constructor
    · rintro (⟨hc, he⟩ | ⟨hc, he⟩)
      · exact ⟨hc, Or.inl he.symm⟩
      · exact ⟨hc, Or.inr he⟩
    · rintro ⟨hc, he | he⟩
      · exact Or.inl ⟨hc, he.symm⟩
      · exact Or.inr ⟨hc, he⟩

lemma mem_mergeLabels (a b : List repositoryLabelApi) (l : repositoryLabelApi) :
    l ∈ mergeLabels a b ↔ l ∈ a ∨ l ∈ b := by
  simp only [mergeLabels, List.mem_append, List.mem_filter, decide_eq_true_eq]
  by_cases h : l ∈ a <;> simp [h]

/-- C2: for every desired label name list, repository label catalog and list
of labels already attached to the pull request, the label set computed by
`updatePullRequest` for the update mutation (namely
`mergeLabels (matchingLabels desired catalog) attached`) contains exactly the
catalog labels whose name equals some desired name together with all labels
already attached to the pull request; in particular an attached label is
never dropped from the computed set. -/
theorem updatePullRequest_label_set_union (desired : List String)
    (catalog attached : List repositoryLabelApi) (l : repositoryLabelApi) :
    l ∈ mergeLabels (matchingLabels desired catalog) attached ↔
      ((l ∈ catalog ∧ l.Name ∈ desired) ∨ l ∈ attached) := by
  rw [mem_mergeLabels, mem_matchingLabels]

/-- C9: construction of the action (`NewAction`, via `ActionSpec.Validate`
and `isMergeMethodValid`) returns a validation error exactly when the
configured merge method, compared case-insensitively, is none of the empty
string, squash, merge and rebase; `NewAction` takes no environment and emits
no interaction, so the error is produced before any remote call. -/
theorem newAction_merge_method_validation (spec : ActionSpec) (gh : Github) :
    (NewAction spec gh).2 = none ↔
      (spec.MergeMethod = "" ∨ equalFold spec.MergeMethod "squash" = true ∨
        equalFold spec.MergeMethod "merge" = true ∨
        equalFold spec.MergeMethod "rebase" = true) := by
  have hsq : toUpperStr "squash" = "SQUASH" := by decide
  have hme : toUpperStr "merge" = "MERGE" := by decide
  have hre : toUpperStr "rebase" = "REBASE" := by decide
  have hval : (NewAction spec gh).2 = (isMergeMethodValid spec.MergeMethod).2 := by
    show spec.Validate = _
    unfold ActionSpec.Validate
    cases h : (isMergeMethodValid spec.MergeMethod).2 <;> simp [h]
  rw [hval]
  simp only [equalFold, hsq, hme, hre, beq_iff_eq]
  unfold isMergeMethodValid
  split
  · rename_i h
    simp only [Bool.or_eq_true, beq_iff_eq, string_length_eq_zero] at h
    exact ⟨fun _ => by tauto, fun _ => rfl⟩
  · rename_i h
    simp only [Bool.or_eq_true, beq_iff_eq, string_length_eq_zero] at h
    constructor
    · intro hx
      exact absurd hx (by simp)
    · intro hx
      exact absurd (by tauto : ((spec.MergeMethod = "" ∨ toUpperStr spec.MergeMethod = "SQUASH") ∨
          toUpperStr spec.MergeMethod = "MERGE") ∨ toUpperStr spec.MergeMethod = "REBASE") h

lemma labelsLoop_pages (pages : List LabelsPage) :
    ∀ (before : Option String) (acc : List repositoryLabelApi),
    (∃ pg ∈ pages, pg.PageInfo.HasPreviousPage = false) →
    labelsLoop (pages.map Except.ok) before acc =
      (Except.ok (acc ++
          ((pages.take (pages.findIdx (fun pg => !pg.PageInfo.HasPreviousPage) + 1)).map pageLabels).flatten),
        before :: (pages.take (pages.findIdx (fun pg => !pg.PageInfo.HasPreviousPage))).map
          (fun pg => some pg.PageInfo.StartCursor)) := by
  induction pages with
  | nil =>
    intro before acc h
    simp at h
  | cons page rest ih =>
    intro before acc h
    cases hp : page.PageInfo.HasPreviousPage with
    | false =>
      have hidx : (page :: rest).findIdx (fun pg => !pg.PageInfo.HasPreviousPage) = 0 := by
        simp [List.findIdx_cons, hp]
      rw [hidx]
      simp [labelsLoop, hp]
    | true =>
      have hrest : ∃ pg ∈ rest, pg.PageInfo.HasPreviousPage = false := by
        rcases h with ⟨pg, hmem, hfalse⟩
        rcases List.mem_cons.mp hmem with heq | hmem2
        · rw [heq, hp] at hfalse
          cases hfalse
        · exact ⟨pg, hmem2, hfalse⟩
      have hidx : (page :: rest).findIdx (fun pg => !pg.PageInfo.HasPreviousPage) =
          rest.findIdx (fun pg => !pg.PageInfo.HasPreviousPage) + 1 := by
        simp [List.findIdx_cons, hp]
      rw [hidx]
      have hih := ih (some page.PageInfo.StartCursor) (acc ++ pageLabels page) hrest
      simp only [List.map_cons, labelsLoop, hp, if_true]
      rw [hih]
      simp [List.take_succ_cons, List.append_assoc]

/-- C3: for every sequence of label pages answered by the platform, the
pagination of `GetPullRequestLabelsInformation` accumulates the labels of
every fetched page (in fetch order) into one list before returning,
terminates exactly after processing the first page whose page info reports
no previous page (issuing exactly one query per fetched page, as the trace
shows), never returns a partial result, and each iteration moves the before
cursor to the start cursor of the page just fetched (the first query uses a
nil cursor); hence, when the start cursors are pairwise distinct, no cursor
is ever re-requested. -/
theorem getPullRequestLabels_pagination (p : PullRequest) (env : GithubEnv)
    (pages : List LabelsPage)
    (hresp : env.labelPageResponses = pages.map Except.ok)
    (hstop : ∃ pg ∈ pages, pg.PageInfo.HasPreviousPage = false) :
    GetPullRequestLabelsInformation p env =
      (Except.ok
          (((pages.take (pages.findIdx (fun pg => !pg.PageInfo.HasPreviousPage) + 1)).map pageLabels).flatten),
        (none :: (pages.take (pages.findIdx (fun pg => !pg.PageInfo.HasPreviousPage))).map
            (fun pg => some pg.PageInfo.StartCursor)).map
          (fun c => Interaction.queryPullRequestLabels
              (if p.spec.Parent then p.repository.ParentOwner else p.repository.Owner)
              (if p.spec.Parent then p.repository.ParentName else p.repository.Name)
              p.remotePullRequest.Number c))
    ∧ (((pages.take (pages.findIdx (fun pg => !pg.PageInfo.HasPreviousPage))).map
          (fun pg => pg.PageInfo.StartCursor)).Nodup →
        (none :: (pages.take (pages.findIdx (fun pg => !pg.PageInfo.HasPreviousPage))).map
            (fun pg => some pg.PageInfo.StartCursor)).Nodup) := by
  have hloop := labelsLoop_pages pages none [] hstop
  constructor
  · unfold GetPullRequestLabelsInformation
    rw [hresp, hloop]
    simp
  · intro hnd
    rw [List.nodup_cons]
    refine ⟨?_, ?_⟩
    · intro hcontra
      rcases List.mem_map.mp hcontra with ⟨pg, hpg, hbad⟩
      cases hbad
    have hmm : (pages.take (pages.findIdx (fun pg => !pg.PageInfo.HasPreviousPage))).map
        (fun pg => some pg.PageInfo.StartCursor) =
        ((pages.take (pages.findIdx (fun pg => !pg.PageInfo.HasPreviousPage))).map
          (fun pg => pg.PageInfo.StartCursor)).map some := by
      rw [List.map_map]
      rfl
    rw [hmm]
    exact List.Nodup.map (Option.some_injective _) hnd

/-- Witness for C3: the spec's three-page example, with distinct start
cursors; all three pages are fetched, the result is the concatenation of
their labels, three queries are issued (terminating at the page with no
previous page) and the cursor sequence nil, cursorA, cursorB has no
duplicate. -/
theorem getPullRequestLabels_pagination_witness :
    GetPullRequestLabelsInformation { pEx with remotePullRequest := prEx }
        { envBase with labelPageResponses := pages3.map Except.ok } =
      (Except.ok [labelA, labelB, labelC],
        [Interaction.queryPullRequestLabels "olblak" "charts" 4 none,
         Interaction.queryPullRequestLabels "olblak" "charts" 4 (some "cursorA"),
         Interaction.queryPullRequestLabels "olblak" "charts" 4 (some "cursorB")])
    ∧ ([none, some "cursorA", some "cursorB"] : List (Option String)).Nodup :=
  ⟨(getPullRequestLabels_pagination { pEx with remotePullRequest := prEx }
      { envBase with labelPageResponses := pages3.map Except.ok } pages3 rfl
      ⟨pageC, by decide, rfl⟩).1,
   (getPullRequestLabels_pagination { pEx with remotePullRequest := prEx }
      { envBase with labelPageResponses := pages3.map Except.ok } pages3 rfl
      ⟨pageC, by decide, rfl⟩).2 (by decide)⟩

lemma labelsInfo_trace_shape (p : PullRequest) (env : GithubEnv) :
    ∀ i ∈ (GetPullRequestLabelsInformation p env).2, ∃ c,
      i = Interaction.queryPullRequestLabels
            (if p.spec.Parent then p.repository.ParentOwner else p.repository.Owner)
            (if p.spec.Parent then p.repository.ParentName else p.repository.Name)
            p.remotePullRequest.Number c := by
  intro i hi
  simp only [GetPullRequestLabelsInformation] at hi
  rcases hloop : labelsLoop env.labelPageResponses none [] with ⟨res, cursors⟩
  rw [hloop] at hi
  simp only [List.mem_map] at hi
  rcases hi with ⟨c, hc, rfl⟩
  exact ⟨c, rfl⟩

lemma getRemotePullRequest_trace (p : PullRequest) (env : GithubEnv) (resetBody : Bool) :
    (getRemotePullRequest p env resetBody).2 =
      [Interaction.queryPullRequests
        (if p.spec.Parent then p.repository.ParentOwner else p.repository.Owner)
        (if p.spec.Parent then p.repository.ParentName else p.repository.Name)
        (p.gh.GetBranches).2.2 (p.gh.GetBranches).2.1] := by
  simp only [getRemotePullRequest]
  rcases env.pullRequestNodes with e | nodes
  · rfl
  · cases nodes <;> rfl

lemma enableAutoMerge_allowed (p : PullRequest) (env : GithubEnv)
    (hallow : env.autoMergeAllowed = Except.ok true) :
    EnablePullRequestAutoMerge p env =
      ((match env.enableAutoMergeResult with
        | Except.error e => Except.error e
        | Except.ok _ => Except.ok ()),
       [Interaction.queryAutoMergeAllowed p.gh.Spec.Owner p.gh.Spec.Repository,
        Interaction.mutateEnablePullRequestAutoMerge
          { PullRequestID := p.remotePullRequest.ID
            MergeMethod := if p.spec.MergeMethod.length > 0 then some (toUpperStr p.spec.MergeMethod) else none
            CommitHeadline :=
              if p.spec.UseTitleForAutoMerge then
                if equalFold p.spec.MergeMethod "squash" then
                  some (p.Title ++ " (#" ++ toString p.remotePullRequest.Number ++ ")")
                else if equalFold p.spec.MergeMethod "rebase" then some p.Title
                else none
              else none }]) := by
  simp only [EnablePullRequestAutoMerge, isAutoMergedEnabledOnRepository]
  rw [hallow]
  cases env.enableAutoMergeResult <;> simp

/-- C7: `EnablePullRequestAutoMerge` first queries whether auto-merge is
allowed on the repository; if the query reports false it returns
`ErrAutomergeNotAllowOnRepository` without issuing the enable mutation (the
trace holds only the allowance query), and if the allowance query itself
fails the mutation is likewise never attempted. -/
theorem enableAutoMerge_gating (p : PullRequest) (env : GithubEnv) :
    (env.autoMergeAllowed = Except.ok false →
      EnablePullRequestAutoMerge p env =
        (Except.error ErrAutomergeNotAllowOnRepository,
         [Interaction.queryAutoMergeAllowed p.gh.Spec.Owner p.gh.Spec.Repository]))
    ∧ (∀ e, env.autoMergeAllowed = Except.error e →
        EnablePullRequestAutoMerge p env =
          (Except.error e,
           [Interaction.queryAutoMergeAllowed p.gh.Spec.Owner p.gh.Spec.Repository])) := by
  constructor
  · intro h
    simp only [EnablePullRequestAutoMerge, isAutoMergedEnabledOnRepository]
    rw [h]
    rfl
  · intro e h
    simp only [EnablePullRequestAutoMerge, isAutoMergedEnabledOnRepository]
    rw [h]

/-- Witness for C7: on a concrete environment whose repository disallows
auto-merge, `EnablePullRequestAutoMerge` returns the dedicated error and the
trace holds only the allowance query. -/
theorem enableAutoMerge_gating_witness :
    EnablePullRequestAutoMerge pEx { envBase with autoMergeAllowed := Except.ok false } =
      (Except.error ErrAutomergeNotAllowOnRepository,
       [Interaction.queryAutoMergeAllowed "olblak" "charts"]) :=
  (enableAutoMerge_gating pEx { envBase with autoMergeAllowed := Except.ok false }).1 rfl

/-- C8: when the configuration requests using the title for the auto-merge
commit, the commit headline of the enable-auto-merge mutation input is
exactly the title followed by a space and the parenthesised pull-request
number for a squash merge method (case-insensitive), exactly the bare title
for a rebase merge method (case-insensitive), and is left unset for any
other merge method. -/
theorem autoMerge_commit_headline (p : PullRequest) (env : GithubEnv)
    (hallow : env.autoMergeAllowed = Except.ok true)
    (huse : p.spec.UseTitleForAutoMerge = true) :
    ∃ inp : EnablePullRequestAutoMergeInput,
      (EnablePullRequestAutoMerge p env).2 =
        [Interaction.queryAutoMergeAllowed p.gh.Spec.Owner p.gh.Spec.Repository,
         Interaction.mutateEnablePullRequestAutoMerge inp]
      ∧ (equalFold p.spec.MergeMethod "squash" = true →
          inp.CommitHeadline = some (p.Title ++ " (#" ++ toString p.remotePullRequest.Number ++ ")"))
      ∧ (equalFold p.spec.MergeMethod "rebase" = true →
          inp.CommitHeadline = some p.Title)
      ∧ (equalFold p.spec.MergeMethod "squash" = false →
          equalFold p.spec.MergeMethod "rebase" = false →
          inp.CommitHeadline = none) := by
  have hsq : toUpperStr "squash" = "SQUASH" := by decide
  have hrb : toUpperStr "rebase" = "REBASE" := by decide
  rw [enableAutoMerge_allowed p env hallow]
  refine ⟨_, rfl, ?_, ?_, ?_⟩
  · intro hs
    simp [huse, hs]
  · intro hr
    have hsqf : equalFold p.spec.MergeMethod "squash" = false := by
      have h1 : toUpperStr p.spec.MergeMethod = "REBASE" := by
        unfold equalFold at hr
        rw [hrb] at hr
        exact eq_of_beq hr
      unfold equalFold
      rw [hsq, h1]
      decide
    simp [huse, hr, hsqf]
  · intro hs hr
    simp [huse, hs, hr]

/-- Witness for C8: the spec's example, squash merge method, title
Bump x to 2.0, pull request number 42: the mutation input carries the commit
headline Bump x to 2.0 (#42). -/
theorem autoMerge_commit_headline_witness :
    ∃ inp : EnablePullRequestAutoMergeInput,
      (EnablePullRequestAutoMerge pSquash envBase).2 =
        [Interaction.queryAutoMergeAllowed "olblak" "charts",
         Interaction.mutateEnablePullRequestAutoMerge inp]
      ∧ (equalFold "squash" "squash" = true →
          inp.CommitHeadline = some "Bump x to 2.0 (#42)")
      ∧ (equalFold "squash" "rebase" = true →
          inp.CommitHeadline = some "Bump x to 2.0")
      ∧ (equalFold "squash" "squash" = false →
          equalFold "squash" "rebase" = false →
          inp.CommitHeadline = none) :=
  autoMerge_commit_headline pSquash envBase rfl rfl

lemma updatePullRequest_update_input (p : PullRequest) (env : GithubEnv)
    (inp : UpdatePullRequestInput)
    (hmem : Interaction.mutateUpdatePullRequest inp ∈ (updatePullRequest p env).2) :
    ∃ bodyPR cat remotePRLabels,
      env.generatePullRequestBody p.spec.Description p.Report = Except.ok bodyPR ∧
      env.repositoryLabels = Except.ok cat ∧
      (GetPullRequestLabelsInformation p env).1 = Except.ok remotePRLabels ∧
      inp = { PullRequestID := p.remotePullRequest.ID
              Title := some p.Title
              Body := some bodyPR
              LabelIDs := if p.spec.Labels.length != 0 then
                  some ((mergeLabels (matchingLabels p.spec.Labels cat) remotePRLabels).map (fun l => l.ID))
                else none } := by
  simp only [updatePullRequest] at hmem
  cases hbody : env.generatePullRequestBody p.spec.Description p.Report with
  | error e =>
    rw [hbody] at hmem
    simp at hmem
  | ok bodyPR =>
    rw [hbody] at hmem
    cases hcat : env.repositoryLabels with
    | error e =>
      rw [hcat] at hmem
      simp at hmem
    | ok cat =>
      rw [hcat] at hmem
      rcases hlab : GetPullRequestLabelsInformation p env with ⟨labres, tq⟩
      rw [hlab] at hmem
      have hshape := labelsInfo_trace_shape p env
      rw [hlab] at hshape
      cases labres with
      | error e =>
        rcases List.mem_cons.mp hmem with h | h
        · exact absurd h (by simp)
        · rcases hshape _ h with ⟨c, hc⟩
          exact absurd hc (by simp)
      | ok remotePRLabels =>
        refine ⟨bodyPR, cat, remotePRLabels, rfl, rfl, rfl, ?_⟩
        have hnotin : ∀ j ∈ tq, ∀ y, j ≠ Interaction.mutateUpdatePullRequest y := by
          intro j hj y
          rcases hshape _ hj with ⟨c, hc⟩
          rw [hc]
          simp
        cases hupd : env.updateResult with
        | error e =>
          rw [hupd] at hmem
          rcases List.mem_cons.mp hmem with h | h
          · exact absurd h (by simp)
          · rcases List.mem_append.mp h with h2 | h2
            · exact absurd rfl (hnotin _ h2 inp)
            · have h3 := List.mem_singleton.mp h2
              simp only [Interaction.mutateUpdatePullRequest.injEq] at h3
              exact h3
        | ok r =>
          rw [hupd] at hmem
          rcases List.mem_cons.mp hmem with h | h
          · exact absurd h (by simp)
          · rcases List.mem_append.mp h with h2 | h2
            · exact absurd rfl (hnotin _ h2 inp)
            · have h3 := List.mem_singleton.mp h2
              simp only [Interaction.mutateUpdatePullRequest.injEq] at h3
              exact h3

lemma openPullRequest_create_input (p : PullRequest) (env : GithubEnv)
    (inp : CreatePullRequestInput)
    (hmem : Interaction.mutateCreatePullRequest inp ∈ (OpenPullRequest p env).2) :
    p.isAhead = true ∧
    ∃ bodyPR, env.generatePullRequestBody p.spec.Description p.Report = Except.ok bodyPR ∧
      inp = { RepositoryID := if p.spec.Parent then p.repository.ParentID else p.repository.ID
              BaseRefName := (p.gh.GetBranches).2.2
              HeadRefName := (p.gh.GetBranches).2.1
              Title := p.Title
              Body := some bodyPR
              MaintainerCanModify := some (!p.spec.MaintainerCannotModify)
              Draft := some p.spec.Draft
              HeadRepositoryID := if p.spec.Parent then some p.repository.ID else none } := by
  simp only [OpenPullRequest] at hmem
  cases hbody : env.generatePullRequestBody p.spec.Description p.Report with
  | error e =>
    rw [hbody] at hmem
    simp at hmem
  | ok bodyPR =>
    rw [hbody] at hmem
    cases hahead : p.isAhead with
    | false =>
      simp [hahead] at hmem
    | true =>
      simp only [hahead, Bool.not_true, Bool.false_eq_true, if_false] at hmem
      refine ⟨rfl, bodyPR, rfl, ?_⟩
      cases hc : env.createResult with
      | error e =>
        rw [hc] at hmem
        simp only [List.mem_singleton, Interaction.mutateCreatePullRequest.injEq] at hmem
        exact hmem
      | ok pr =>
        rw [hc] at hmem
        simp only [List.mem_singleton, Interaction.mutateCreatePullRequest.injEq] at hmem
        exact hmem

/-- C4: the update mutation input carries a label id list if and only if the
configured desired label name list is non-empty; when no label is configured
the field is omitted (nil), never sent as an empty list, so the existing
labels of the pull request are preserved. -/
theorem updatePullRequest_labelIDs_iff (p : PullRequest) (env : GithubEnv)
    (inp : UpdatePullRequestInput)
    (hmem : Interaction.mutateUpdatePullRequest inp ∈ (updatePullRequest p env).2) :
    inp.LabelIDs ≠ none ↔ p.spec.Labels ≠ [] := by
  rcases updatePullRequest_update_input p env inp hmem with ⟨bodyPR, cat, remote, _, _, _, hinp⟩
  rw [hinp]
  cases hL : p.spec.Labels with
  | nil => simp
  | cons a as => simp

/-- Witness for C4: with one configured label, the concrete update mutation
input carries a label id list (and the configured list is non-empty). -/
theorem updatePullRequest_labelIDs_iff_witness :
    ({ PullRequestID := "PR_1", Title := some "T", Body := some "R",
       LabelIDs := some ["L1"] } : UpdatePullRequestInput).LabelIDs ≠ none ↔
      ({ specEx with Labels := ["dependencies"] } : ActionSpec).Labels ≠ [] :=
  updatePullRequest_labelIDs_iff
    { pEx with spec := { specEx with Labels := ["dependencies"] } }
    { envBase with repositoryLabels := Except.ok [labelA] }
    { PullRequestID := "PR_1", Title := some "T", Body := some "R", LabelIDs := some ["L1"] }
    (by decide)

/-- C5: when the configuration targets the parent of the fork, the
pull-request lookup and every pull-request label lookup address the parent
repository's owner and name, while the create mutation sets its (base)
repository id to the parent's id and its head repository id to the fork's
id. -/
theorem fork_parent_redirection (p : PullRequest) (env : GithubEnv) (resetBody : Bool)
    (hparent : p.spec.Parent = true) :
    ((getRemotePullRequest p env resetBody).2 =
      [Interaction.queryPullRequests p.repository.ParentOwner p.repository.ParentName
        (p.gh.GetBranches).2.2 (p.gh.GetBranches).2.1])
    ∧ (∀ i ∈ (GetPullRequestLabelsInformation p env).2, ∃ c,
        i = Interaction.queryPullRequestLabels p.repository.ParentOwner p.repository.ParentName
              p.remotePullRequest.Number c)
    ∧ (∀ inp : CreatePullRequestInput,
        Interaction.mutateCreatePullRequest inp ∈ (OpenPullRequest p env).2 →
          inp.RepositoryID = p.repository.ParentID ∧
          inp.HeadRepositoryID = some p.repository.ID) := by
  refine ⟨?_, ?_, ?_⟩
  · rw [getRemotePullRequest_trace p env resetBody, hparent]
    simp
  · intro i hi
    rcases labelsInfo_trace_shape p env i hi with ⟨c, hc⟩
    rw [hparent] at hc
    simp at hc
    exact ⟨c, by rw [hc]⟩
  · intro inp hinp
    rcases openPullRequest_create_input p env inp hinp with ⟨_, bodyPR, _, hinpEq⟩
    rw [hinpEq, hparent]
    simp

/-- Witness for C5: on the concrete fork-targeting state, the pull-request
query addresses the parent (upstream/charts), the label query likewise, and
the concrete create input carries the parent repository id as base and the
fork id as head. -/
theorem fork_parent_redirection_witness :
    ((getRemotePullRequest pParent envBase false).2 =
      [Interaction.queryPullRequests "upstream" "charts" "main" "main"])
    ∧ (∃ c, Interaction.queryPullRequestLabels "upstream" "charts" 4 none =
        Interaction.queryPullRequestLabels "upstream" "charts" 4 c)
    ∧ (inpParentCreate.RepositoryID = "ParentRepoID" ∧
        inpParentCreate.HeadRepositoryID = some "RepoID") :=
  ⟨(fork_parent_redirection pParent envBase false rfl).1,
   (fork_parent_redirection pParent envBase false rfl).2.1 _ (by decide),
   (fork_parent_redirection pParent envBase false rfl).2.2 inpParentCreate (by decide)⟩

lemma getRemotePullRequest_none (p : PullRequest) (env : GithubEnv) (resetBody : Bool)
    (h : env.pullRequestNodes = Except.ok []) :
    getRemotePullRequest p env resetBody =
      (Except.ok p,
       [Interaction.queryPullRequests
         (if p.spec.Parent then p.repository.ParentOwner else p.repository.Owner)
         (if p.spec.Parent then p.repository.ParentName else p.repository.Name)
         (p.gh.GetBranches).2.2 (p.gh.GetBranches).2.1]) := by
  simp only [getRemotePullRequest]
  rw [h]

lemma getRemotePullRequest_found (p : PullRequest) (env : GithubEnv) (resetBody : Bool)
    (pr : PullRequestApi) (rest : List PullRequestApi)
    (h : env.pullRequestNodes = Except.ok (pr :: rest)) :
    getRemotePullRequest p env resetBody =
      (Except.ok
        { p with
            remotePullRequest := pr
            Report := if resetBody then p.Report else env.mergeFromString pr.Body p.Report },
       [Interaction.queryPullRequests
         (if p.spec.Parent then p.repository.ParentOwner else p.repository.Owner)
         (if p.spec.Parent then p.repository.ParentName else p.repository.Name)
         (p.gh.GetBranches).2.2 (p.gh.GetBranches).2.1]) := by
  simp only [getRemotePullRequest]
  rw [h]

lemma getRemotePullRequest_state (p : PullRequest) (env : GithubEnv) (resetBody : Bool)
    (p1 : PullRequest) (h : (getRemotePullRequest p env resetBody).1 = Except.ok p1) :
    p1.gh = p.gh ∧ p1.Title = p.Title ∧ p1.spec = p.spec ∧ p1.repository = p.repository := by
  simp only [getRemotePullRequest] at h
  cases henv : env.pullRequestNodes with
  | error e =>
    rw [henv] at h
    simp at h
  | ok nodes =>
    rw [henv] at h
    cases nodes with
    | nil =>
      simp only [Except.ok.injEq] at h
      subst h
      exact ⟨rfl, rfl, rfl, rfl⟩
    | cons pr rest =>
      simp only [Except.ok.injEq] at h
      subst h
      exact ⟨rfl, rfl, rfl, rfl⟩

lemma openPullRequest_not_ahead (p : PullRequest) (env : GithubEnv)
    (hna : p.isAhead = false)
    (hbody : ∃ b, env.generatePullRequestBody p.spec.Description p.Report = Except.ok b) :
    OpenPullRequest p env = (Except.ok p, []) := by
  rcases hbody with ⟨b, hb⟩
  simp only [OpenPullRequest]
  rw [hb, hna]
  rfl

lemma openPullRequest_state (p : PullRequest) (env : GithubEnv)
    (p2 : PullRequest) (h : (OpenPullRequest p env).1 = Except.ok p2) :
    p2.gh = p.gh ∧ p2.Title = p.Title ∧ p2.spec = p.spec ∧ p2.repository = p.repository := by
  simp only [OpenPullRequest] at h
  cases hb : env.generatePullRequestBody p.spec.Description p.Report with
  | error e =>
    rw [hb] at h
    simp at h
  | ok b =>
    rw [hb] at h
    cases ha : p.isAhead with
    | false =>
      simp only [ha, Bool.not_false, if_true, Except.ok.injEq] at h
      subst h
      exact ⟨rfl, rfl, rfl, rfl⟩
    | true =>
      simp only [ha, Bool.not_true, Bool.false_eq_true, if_false] at h
      cases hc : env.createResult with
      | error e =>
        rw [hc] at h
        simp at h
      | ok pr =>
        rw [hc] at h
        simp only [Except.ok.injEq] at h
        subst h
        exact ⟨rfl, rfl, rfl, rfl⟩

lemma openPullRequest_members (p : PullRequest) (env : GithubEnv) :
    ∀ i ∈ (OpenPullRequest p env).2,
      ∃ inp, i = Interaction.mutateCreatePullRequest inp ∧ inp.Title = p.Title := by
  intro i hi
  simp only [OpenPullRequest] at hi
  cases hb : env.generatePullRequestBody p.spec.Description p.Report with
  | error e =>
    rw [hb] at hi
    simp at hi
  | ok b =>
    rw [hb] at hi
    cases ha : p.isAhead with
    | false =>
      simp only [ha, Bool.not_false, if_true] at hi
      simp at hi
    | true =>
      simp only [ha, Bool.not_true, Bool.false_eq_true, if_false] at hi
      cases hc : env.createResult with
      | error e =>
        rw [hc] at hi
        have h2 := List.mem_singleton.mp hi
        exact ⟨_, h2, rfl⟩
      | ok pr =>
        rw [hc] at hi
        have h2 := List.mem_singleton.mp hi
        exact ⟨_, h2, rfl⟩

lemma open_or_skip_members (p1 : PullRequest) (env : GithubEnv) (cond : Prop)
    [Decidable cond] (res : Except String PullRequest) (t2 : List Interaction)
    (heq : (if cond then OpenPullRequest p1 env else (Except.ok p1, [])) = (res, t2)) :
    ∀ i ∈ t2, ∃ inp, i = Interaction.mutateCreatePullRequest inp ∧ inp.Title = p1.Title := by
  split at heq
  · intro i hi
    have ht : (OpenPullRequest p1 env).2 = t2 := congrArg Prod.snd heq
    rw [← ht] at hi
    exact openPullRequest_members p1 env i hi
  · intro i hi
    cases heq
    simp at hi

lemma open_or_skip_state (p1 : PullRequest) (env : GithubEnv) (cond : Prop)
    [Decidable cond] (res : Except String PullRequest) (t2 : List Interaction)
    (heq : (if cond then OpenPullRequest p1 env else (Except.ok p1, [])) = (res, t2))
    (p2 : PullRequest) (hres : res = Except.ok p2) :
    p2.gh = p1.gh ∧ p2.Title = p1.Title ∧ p2.spec = p1.spec ∧ p2.repository = p1.repository := by
  split at heq
  · have h1 : (OpenPullRequest p1 env).1 = Except.ok p2 := by
      rw [heq, hres]
    exact openPullRequest_state p1 env p2 h1
  · cases heq
    cases hres
    exact ⟨rfl, rfl, rfl, rfl⟩

lemma open_or_skip_not_ahead (p1 : PullRequest) (env : GithubEnv) (cond : Prop)
    [Decidable cond]
    (hna : p1.isAhead = false)
    (hbody : ∃ b, env.generatePullRequestBody p1.spec.Description p1.Report = Except.ok b) :
    (if cond then OpenPullRequest p1 env else (Except.ok p1, [])) = (Except.ok p1, []) := by
  split
  · exact openPullRequest_not_ahead p1 env hna hbody
  · rfl

lemma updatePullRequest_members (p : PullRequest) (env : GithubEnv) :
    ∀ i ∈ (updatePullRequest p env).2,
      i = Interaction.queryRepositoryLabels ∨
      (∃ o n nb c, i = Interaction.queryPullRequestLabels o n nb c) ∨
      (∃ inp, i = Interaction.mutateUpdatePullRequest inp ∧ inp.Title = some p.Title) := by
  intro i hi
  simp only [updatePullRequest] at hi
  cases hb : env.generatePullRequestBody p.spec.Description p.Report with
  | error e =>
    rw [hb] at hi
    simp at hi
  | ok bodyPR =>
    rw [hb] at hi
    cases hcat : env.repositoryLabels with
    | error e =>
      rw [hcat] at hi
      have h2 := List.mem_singleton.mp hi
      exact Or.inl h2
    | ok cat =>
      rw [hcat] at hi
      rcases hlab : GetPullRequestLabelsInformation p env with ⟨labres, tq⟩
      rw [hlab] at hi
      have hshape := labelsInfo_trace_shape p env
      rw [hlab] at hshape
      cases labres with
      | error e =>
        rcases List.mem_cons.mp hi with h | h
        · exact Or.inl h
        · rcases hshape _ h with ⟨c, hc⟩
          exact Or.inr (Or.inl ⟨_, _, _, c, hc⟩)
      | ok remotePRLabels =>
        cases hupd : env.updateResult with
        | error e =>
          rw [hupd] at hi
          rcases List.mem_cons.mp hi with h | h
          · exact Or.inl h
          rcases List.mem_append.mp h with h2 | h2
          · rcases hshape _ h2 with ⟨c, hc⟩
            exact Or.inr (Or.inl ⟨_, _, _, c, hc⟩)
          · have h3 := List.mem_singleton.mp h2
            exact Or.inr (Or.inr ⟨_, h3, rfl⟩)
        | ok r =>
          rw [hupd] at hi
          rcases List.mem_cons.mp hi with h | h
          · exact Or.inl h
          rcases List.mem_append.mp h with h2 | h2
          · rcases hshape _ h2 with ⟨c, hc⟩
            exact Or.inr (Or.inl ⟨_, _, _, c, hc⟩)
          · have h3 := List.mem_singleton.mp h2
            exact Or.inr (Or.inr ⟨_, h3, rfl⟩)

lemma updatePullRequest_ok (p : PullRequest) (env : GithubEnv)
    (hbody : ∀ d r, ∃ b, env.generatePullRequestBody d r = Except.ok b)
    (hcat : ∃ cat, env.repositoryLabels = Except.ok cat)
    (hloop : ∃ ls cs, labelsLoop env.labelPageResponses none [] = (Except.ok ls, cs))
    (hupd : ∃ u, env.updateResult = Except.ok u) :
    (updatePullRequest p env).1 = Except.ok () := by
  rcases hbody p.spec.Description p.Report with ⟨b, hb⟩
  rcases hcat with ⟨cat, hc⟩
  rcases hloop with ⟨ls, cs, hl⟩
  rcases hupd with ⟨u, hu⟩
  have hpair : GetPullRequestLabelsInformation p env =
      (Except.ok ls, cs.map (fun c => Interaction.queryPullRequestLabels
        (if p.spec.Parent then p.repository.ParentOwner else p.repository.Owner)
        (if p.spec.Parent then p.repository.ParentName else p.repository.Name)
        p.remotePullRequest.Number c)) := by
    simp only [GetPullRequestLabelsInformation]
    rw [hl]
  simp only [updatePullRequest]
  rw [hb, hc, hpair, hu]

lemma closePullRequest_ok (p : PullRequest) (env : GithubEnv) (x : PullRequestApi)
    (h : env.closeResult = Except.ok x) :
    closePullRequest p env =
      (Except.ok (), [Interaction.mutateClosePullRequest p.remotePullRequest.ID,
                      Interaction.addComment p.remotePullRequest.ID
                        "Pull request closed as no changed file detected"]) := by
  simp only [closePullRequest]
  rw [h]
  cases env.addCommentResult <;> rfl

lemma closePullRequest_members (p : PullRequest) (env : GithubEnv) :
    ∀ i ∈ (closePullRequest p env).2,
      (∃ d, i = Interaction.mutateClosePullRequest d) ∨
      (∃ d b, i = Interaction.addComment d b) := by
  intro i hi
  simp only [closePullRequest] at hi
  cases hc : env.closeResult with
  | error e =>
    rw [hc] at hi
    have h2 := List.mem_singleton.mp hi
    exact Or.inl ⟨_, h2⟩
  | ok x =>
    rw [hc] at hi
    cases ha : env.addCommentResult with
    | error e =>
      rw [ha] at hi
      rcases List.mem_cons.mp hi with h | h
      · exact Or.inl ⟨_, h⟩
      · have h2 := List.mem_singleton.mp h
        exact Or.inr ⟨_, _, h2⟩
    | ok u =>
      rw [ha] at hi
      rcases List.mem_cons.mp hi with h | h
      · exact Or.inl ⟨_, h⟩
      · have h2 := List.mem_singleton.mp h
        exact Or.inr ⟨_, _, h2⟩

lemma enableAutoMerge_members (p : PullRequest) (env : GithubEnv) :
    ∀ i ∈ (EnablePullRequestAutoMerge p env).2,
      (∃ o n, i = Interaction.queryAutoMergeAllowed o n) ∨
      (∃ inp, i = Interaction.mutateEnablePullRequestAutoMerge inp) := by
  intro i hi
  simp only [EnablePullRequestAutoMerge, isAutoMergedEnabledOnRepository] at hi
  cases ha : env.autoMergeAllowed with
  | error e =>
    rw [ha] at hi
    have h2 := List.mem_singleton.mp hi
    exact Or.inl ⟨_, _, h2⟩
  | ok allowed =>
    rw [ha] at hi
    cases allowed with
    | false =>
      have h2 := List.mem_singleton.mp hi
      exact Or.inl ⟨_, _, h2⟩
    | true =>
      cases hr : env.enableAutoMergeResult with
      | error e =>
        rw [hr] at hi
        rcases List.mem_cons.mp hi with h | h
        · exact Or.inl ⟨_, _, h⟩
        · have h2 := List.mem_singleton.mp h
          exact Or.inr ⟨_, h2⟩
      | ok r =>
        rw [hr] at hi
        rcases List.mem_cons.mp hi with h | h
        · exact Or.inl ⟨_, _, h⟩
        · have h2 := List.mem_singleton.mp h
          exact Or.inr ⟨_, h2⟩

lemma updatePullRequest_members_of (p : PullRequest) (env : GithubEnv)
    {res : Except String Unit} {tq : List Interaction}
    (h : updatePullRequest p env = (res, tq)) :
    ∀ i ∈ tq,
      i = Interaction.queryRepositoryLabels ∨
      (∃ o n nb c, i = Interaction.queryPullRequestLabels o n nb c) ∨
      (∃ inp, i = Interaction.mutateUpdatePullRequest inp ∧ inp.Title = some p.Title) := by
  intro i hi
  apply updatePullRequest_members p env
  rw [h]
  exact hi

/-- C1: when the resolved repository branch status is not AHEAD,
`OpenPullRequest` returns successfully without issuing any create mutation,
and `CreateAction` (under an otherwise successful environment) terminates
successfully with a trace containing no create mutation, so no pull request
is created. -/
theorem createAction_not_ahead_no_create (p0 : PullRequest) (env : GithubEnv)
    (report : ReportAction) (resetDescription : Bool) (repo : Repository)
    (hrepo : env.queryRepositoryResult = Except.ok repo)
    (hstatus : repo.Status ≠ "AHEAD")
    (hnodes : ∃ nodes, env.pullRequestNodes = Except.ok nodes)
    (hbody : ∀ d r, ∃ b, env.generatePullRequestBody d r = Except.ok b)
    (hcat : ∃ cat, env.repositoryLabels = Except.ok cat)
    (hloop : ∃ ls cs, labelsLoop env.labelPageResponses none [] = (Except.ok ls, cs))
    (hupd : ∃ u, env.updateResult = Except.ok u) :
    (∀ p : PullRequest, p.repository = repo → OpenPullRequest p env = (Except.ok p, [])) ∧
    (CreateAction p0 env report resetDescription).1 = Except.ok () ∧
    (∀ i ∈ (CreateAction p0 env report resetDescription).2, i.isCreateMutation = false) := by
  have hst : (repo.Status == "AHEAD") = false := beq_eq_false_iff_ne.mpr hstatus
  have hopen : ∀ p : PullRequest, p.repository = repo → OpenPullRequest p env = (Except.ok p, []) := by
    intro p hp
    refine openPullRequest_not_ahead p env ?_ (hbody _ _)
    simp only [PullRequest.isAhead, hp]
    exact hst
  refine ⟨hopen, ?_⟩
  obtain ⟨nodes, hn⟩ := hnodes
  rcases hact : CreateAction p0 env report resetDescription with ⟨r, t⟩
  simp only [CreateAction] at hact
  split at hact
  next e heq =>
    rw [hrepo] at heq
    simp at heq
  next repository heq =>
  rw [hrepo] at heq
  injection heq with heq2
  subst heq2
  cases nodes with
  | nil =>
    simp only [getRemotePullRequest_none, hn] at hact
    simp only [open_or_skip_not_ahead, PullRequest.isAhead, hst, hbody] at hact
    split at hact
    next e t3 heq3 =>
      have h1 := congrArg Prod.fst heq3
      rw [updatePullRequest_ok _ env hbody hcat hloop hupd] at h1
      simp at h1
    next u t3 heq3 =>
      simp only [PullRequest.isAhead, hst, Bool.not_false, if_true] at hact
      cases hact
      refine ⟨rfl, ?_⟩
      intro i hi
      rcases List.mem_cons.mp hi with h | h
      · rw [h]
        rfl
      rcases List.mem_append.mp h with h2 | h2
      · rcases List.mem_append.mp h2 with h3 | h3
        · have h4 := List.mem_singleton.mp h3
          rw [h4]
          rfl
        · simp at h3
      · rcases updatePullRequest_members_of _ env heq3 i h2 with
          hq | ⟨o, n, nb, c, hq⟩ | ⟨inp, hq, _⟩ <;> rw [hq] <;> rfl
  | cons pr rest =>
    rw [getRemotePullRequest_found _ env resetDescription pr rest hn] at hact
    simp only [open_or_skip_not_ahead, PullRequest.isAhead, hst, hbody] at hact
    split at hact
    next e t3 heq3 =>
      have h1 := congrArg Prod.fst heq3
      rw [updatePullRequest_ok _ env hbody hcat hloop hupd] at h1
      simp at h1
    next u t3 heq3 =>
      simp only [PullRequest.isAhead, hst, Bool.not_false, if_true] at hact
      cases hact
      refine ⟨rfl, ?_⟩
      intro i hi
      rcases List.mem_cons.mp hi with h | h
      · rw [h]
        rfl
      rcases List.mem_append.mp h with h2 | h2
      · rcases List.mem_append.mp h2 with h3 | h3
        · have h4 := List.mem_singleton.mp h3
          rw [h4]
          rfl
        · simp at h3
      · rcases updatePullRequest_members_of _ env heq3 i h2 with
          hq | ⟨o, n, nb, c, hq⟩ | ⟨inp, hq, _⟩ <;> rw [hq] <;> rfl

/-- Witness for C1: on a concrete behind-status environment, the open step
is a no-op and `CreateAction` succeeds with a create-free trace. -/
theorem createAction_not_ahead_no_create_witness :
    (∀ p : PullRequest, p.repository = repoBehind →
        OpenPullRequest p { envBase with queryRepositoryResult := Except.ok repoBehind } =
          (Except.ok p, [])) ∧
    (CreateAction pStart { envBase with queryRepositoryResult := Except.ok repoBehind }
        reportEx false).1 = Except.ok () ∧
    (∀ i ∈ (CreateAction pStart { envBase with queryRepositoryResult := Except.ok repoBehind }
        reportEx false).2, i.isCreateMutation = false) :=
  createAction_not_ahead_no_create pStart
    { envBase with queryRepositoryResult := Except.ok repoBehind } reportEx false repoBehind
    rfl (by decide) ⟨[], rfl⟩ (fun d r => ⟨r, rfl⟩) ⟨[], rfl⟩ ⟨[], [none], rfl⟩ ⟨prEx, rfl⟩

/-- C6 (amended): for an existing pull request with no changed file,
`CleanAction` issues the close mutation and succeeds even though the
explanatory comment fails; `CreateAction` does the same provided the branch
status is AHEAD (when it is not, `CreateAction` returns successfully without
closing, see the counterexample). -/
theorem zero_diff_auto_close (p0 : PullRequest) (env : GithubEnv) (report : ReportAction)
    (repo : Repository) (pr : PullRequestApi) (rest : List PullRequestApi) (x : PullRequestApi)
    (hrepo : env.queryRepositoryResult = Except.ok repo)
    (hnodes : env.pullRequestNodes = Except.ok (pr :: rest))
    (hid : pr.ID ≠ "")
    (hcf : pr.ChangedFiles = 0)
    (hclose : env.closeResult = Except.ok x)
    (hcmt : ∃ e, env.addCommentResult = Except.error e) :
    ((CleanAction p0 env report).1 = Except.ok () ∧
      Interaction.mutateClosePullRequest pr.ID ∈ (CleanAction p0 env report).2) ∧
    (repo.Status = "AHEAD" →
      (∀ d r, ∃ b, env.generatePullRequestBody d r = Except.ok b) →
      (∃ cat, env.repositoryLabels = Except.ok cat) →
      (∃ ls cs, labelsLoop env.labelPageResponses none [] = (Except.ok ls, cs)) →
      (∃ u, env.updateResult = Except.ok u) →
      (CreateAction p0 env report false).1 = Except.ok () ∧
      Interaction.mutateClosePullRequest pr.ID ∈ (CreateAction p0 env report false).2) := by
  have hid2 : (pr.ID == "") = false := beq_eq_false_iff_ne.mpr hid
  have hcf2 : (pr.ChangedFiles == 0) = true := beq_iff_eq.mpr hcf
  obtain ⟨ce, hcmt⟩ := hcmt
  constructor
  · rcases hact : CleanAction p0 env report with ⟨r, t⟩
    simp only [CleanAction] at hact
    split at hact
    next e heq =>
      rw [hrepo] at heq
      simp at heq
    next repository heq =>
    rw [hrepo] at heq
    injection heq with heq2
    subst heq2
    rw [getRemotePullRequest_found _ env false pr rest hnodes] at hact
    simp only [hid2, hcf2, Bool.false_eq_true, if_false, if_true] at hact
    rw [closePullRequest_ok _ env x hclose] at hact
    cases hact
    exact ⟨rfl, by simp⟩
  · intro hahead hbody hcat hloop hupd
    have hahead2 : (repo.Status == "AHEAD") = true := beq_iff_eq.mpr hahead
    have hlen : (pr.ID.length == 0) = false := by
      refine beq_eq_false_iff_ne.mpr ?_
      intro h
      exact hid ((string_length_eq_zero pr.ID).mp h)
    rcases hact : CreateAction p0 env report false with ⟨r, t⟩
    simp only [CreateAction] at hact
    split at hact
    next e heq =>
      rw [hrepo] at heq
      simp at heq
    next repository heq =>
    rw [hrepo] at heq
    injection heq with heq2
    subst heq2
    rw [getRemotePullRequest_found _ env false pr rest hnodes] at hact
    simp only [hlen, Bool.false_eq_true, if_false] at hact
    split at hact
    next e t3 heq3 =>
      have h1 := congrArg Prod.fst heq3
      rw [updatePullRequest_ok _ env hbody hcat hloop hupd] at h1
      simp at h1
    next u t3 heq3 =>
      simp only [PullRequest.isAhead, hahead2, Bool.not_true, Bool.false_eq_true, if_false,
        hcf2, if_true] at hact
      rw [closePullRequest_ok _ env x hclose] at hact
      cases hact
      exact ⟨rfl, by simp⟩

/-- Witness for the amended C6: on the concrete zero-diff environment with a
failing comment, both actions succeed and both traces contain the close
mutation for the pull request PR_0. -/
theorem zero_diff_auto_close_witness :
    ((CleanAction pStart envClean reportEx).1 = Except.ok () ∧
      Interaction.mutateClosePullRequest "PR_0" ∈ (CleanAction pStart envClean reportEx).2) ∧
    ((CreateAction pStart envClean reportEx false).1 = Except.ok () ∧
      Interaction.mutateClosePullRequest "PR_0" ∈ (CreateAction pStart envClean reportEx false).2) :=
  ⟨(zero_diff_auto_close pStart envClean reportEx repoEx prZero [] prEx rfl rfl (by decide) rfl rfl
      ⟨"comment failed", rfl⟩).1,
   (zero_diff_auto_close pStart envClean reportEx repoEx prZero [] prEx rfl rfl (by decide) rfl rfl
      ⟨"comment failed", rfl⟩).2 rfl (fun d r => ⟨r, rfl⟩) ⟨[], rfl⟩ ⟨[], [none], rfl⟩ ⟨prEx, rfl⟩⟩

/-- Counterexample for C6 as frozen: on a concrete environment whose branch
status is BEHIND, the existing pull request has no changed file, yet
`CreateAction` terminates successfully without issuing any close mutation. -/
theorem zero_diff_auto_close_counterexample :
    prZero.ChangedFiles = 0 ∧
    (CreateAction pStart envNotAheadZeroDiff reportEx false).1 = Except.ok () ∧
    ((CreateAction pStart envNotAheadZeroDiff reportEx false).2.all
      (fun i => !i.isCloseMutation)) = true := by
  refine ⟨rfl, rfl, by decide⟩

lemma getRemotePullRequest_members_of (p : PullRequest) (env : GithubEnv) (r : Bool)
    {res : Except String PullRequest} {tq : List Interaction}
    (h : getRemotePullRequest p env r = (res, tq)) :
    ∀ i ∈ tq, ∃ o n b hd, i = Interaction.queryPullRequests o n b hd := by
  intro i hi
  have h2 : i ∈ (getRemotePullRequest p env r).2 := by
    rw [h]
    exact hi
  rw [getRemotePullRequest_trace] at h2
  have h3 := List.mem_singleton.mp h2
  exact ⟨_, _, _, _, h3⟩

lemma getRemotePullRequest_state_of (p : PullRequest) (env : GithubEnv) (r : Bool)
    {p1 : PullRequest} {tq : List Interaction}
    (h : getRemotePullRequest p env r = (Except.ok p1, tq)) :
    p1.gh = p.gh ∧ p1.Title = p.Title ∧ p1.spec = p.spec ∧ p1.repository = p.repository :=
  getRemotePullRequest_state p env r p1 (by rw [h])

lemma enableAutoMerge_members_of (p : PullRequest) (env : GithubEnv)
    {res : Except String Unit} {tq : List Interaction}
    (h : EnablePullRequestAutoMerge p env = (res, tq)) :
    ∀ i ∈ tq, (∃ o n, i = Interaction.queryAutoMergeAllowed o n) ∨
      (∃ inp, i = Interaction.mutateEnablePullRequestAutoMerge inp) := by
  intro i hi
  apply enableAutoMerge_members p env
  rw [h]
  exact hi

lemma createAction_trace_members (p0 : PullRequest) (env : GithubEnv) (report : ReportAction)
    (reset : Bool) :
    ∀ i ∈ (CreateAction p0 env report reset).2, CreateActionTraceClass p0 report i := by
  intro i hi
  simp only [CreateAction] at hi
  split at hi
  next e heq =>
    exact Or.inl (List.mem_singleton.mp hi)
  next repository heq =>
  split at hi
  next e t1 heq1 =>
    rcases List.mem_cons.mp hi with h | h
    · exact Or.inl h
    · rcases getRemotePullRequest_members_of _ env reset heq1 i h with ⟨o, n, b, hd, hq⟩
      exact Or.inr (Or.inl ⟨o, n, b, hd, hq⟩)
  next p1 t1 heq1 =>
  have hs1 := getRemotePullRequest_state_of _ env reset heq1
  split at hi
  next e t2 heq2 =>
    rcases List.mem_cons.mp hi with h | h
    · exact Or.inl h
    rcases List.mem_append.mp h with h1 | h2
    · rcases getRemotePullRequest_members_of _ env reset heq1 i h1 with ⟨o, n, b, hd, hq⟩
      exact Or.inr (Or.inl ⟨o, n, b, hd, hq⟩)
    · rcases open_or_skip_members _ env _ _ _ heq2 i h2 with ⟨inp, hieq, htl⟩
      exact Or.inr (Or.inr (Or.inl ⟨inp, hieq, htl.trans hs1.2.1⟩))
  next p2 t2 heq2 =>
  have hs2 := open_or_skip_state _ env _ _ _ heq2 p2 rfl
  have hT2 : p2.Title = (if (p0.spec.Title != "") = true then p0.spec.Title else report.Title) :=
    hs2.2.1.trans hs1.2.1
  split at hi
  next e t3 heq3 =>
    have hbase : ∀ j ∈ Interaction.queryRepository :: t1 ++ t2 ++ t3,
        CreateActionTraceClass p0 report j := by
      intro j hj
      rcases List.mem_cons.mp hj with h | h
      · exact Or.inl h
      rcases List.mem_append.mp h with h12 | h3
      · rcases List.mem_append.mp h12 with h1 | h2
        · rcases getRemotePullRequest_members_of _ env reset heq1 j h1 with ⟨o, n, b, hd, hq⟩
          exact Or.inr (Or.inl ⟨o, n, b, hd, hq⟩)
        · rcases open_or_skip_members _ env _ _ _ heq2 j h2 with ⟨inp, hieq, htl⟩
          exact Or.inr (Or.inr (Or.inl ⟨inp, hieq, htl.trans hs1.2.1⟩))
      · rcases updatePullRequest_members_of _ env heq3 j h3 with hq | ⟨o, n, nb, c, hq⟩ | ⟨inp, hq, htl⟩
        · exact Or.inr (Or.inr (Or.inr (Or.inl hq)))
        · exact Or.inr (Or.inr (Or.inr (Or.inr (Or.inl ⟨o, n, nb, c, hq⟩))))
        · refine Or.inr (Or.inr (Or.inr (Or.inr (Or.inr (Or.inl ⟨inp, hq, ?_⟩)))))
          rw [htl, hT2]
    exact hbase i hi
  next u t3 heq3 =>
    have hbase : ∀ j ∈ Interaction.queryRepository :: t1 ++ t2 ++ t3,
        CreateActionTraceClass p0 report j := by
      intro j hj
      rcases List.mem_cons.mp hj with h | h
      · exact Or.inl h
      rcases List.mem_append.mp h with h12 | h3
      · rcases List.mem_append.mp h12 with h1 | h2
        · rcases getRemotePullRequest_members_of _ env reset heq1 j h1 with ⟨o, n, b, hd, hq⟩
          exact Or.inr (Or.inl ⟨o, n, b, hd, hq⟩)
        · rcases open_or_skip_members _ env _ _ _ heq2 j h2 with ⟨inp, hieq, htl⟩
          exact Or.inr (Or.inr (Or.inl ⟨inp, hieq, htl.trans hs1.2.1⟩))
      · rcases updatePullRequest_members_of _ env heq3 j h3 with hq | ⟨o, n, nb, c, hq⟩ | ⟨inp, hq, htl⟩
        · exact Or.inr (Or.inr (Or.inr (Or.inl hq)))
        · exact Or.inr (Or.inr (Or.inr (Or.inr (Or.inl ⟨o, n, nb, c, hq⟩))))
        · refine Or.inr (Or.inr (Or.inr (Or.inr (Or.inr (Or.inl ⟨inp, hq, ?_⟩)))))
          rw [htl, hT2]
    split at hi
    next hcnd =>
      exact hbase i hi
    next hcnd =>
    split at hi
    next hcnd2 =>
      rcases List.mem_append.mp hi with h | h
      · exact hbase i h
      · rcases closePullRequest_members _ env i h with ⟨d, hq⟩ | ⟨d, b, hq⟩
        · exact Or.inr (Or.inr (Or.inr (Or.inr (Or.inr (Or.inr (Or.inl ⟨d, hq⟩))))))
        · exact Or.inr (Or.inr (Or.inr (Or.inr (Or.inr (Or.inr (Or.inr (Or.inl ⟨d, b, hq⟩)))))))
    next hcnd2 =>
    split at hi
    next hcnd3 =>
      split at hi
      next e t4 heq4 =>
        rcases List.mem_append.mp hi with h | h
        · exact hbase i h
        · rcases enableAutoMerge_members_of _ env heq4 i h with ⟨o, n, hq⟩ | ⟨inp, hq⟩
          · exact Or.inr (Or.inr (Or.inr (Or.inr (Or.inr (Or.inr (Or.inr (Or.inr (Or.inl ⟨o, n, hq⟩))))))))
          · exact Or.inr (Or.inr (Or.inr (Or.inr (Or.inr (Or.inr (Or.inr (Or.inr (Or.inr ⟨inp, hq⟩))))))))
      next uu t4 heq4 =>
        rcases List.mem_append.mp hi with h | h
        · exact hbase i h
        · rcases enableAutoMerge_members_of _ env heq4 i h with ⟨o, n, hq⟩ | ⟨inp, hq⟩
          · exact Or.inr (Or.inr (Or.inr (Or.inr (Or.inr (Or.inr (Or.inr (Or.inr (Or.inl ⟨o, n, hq⟩))))))))
          · exact Or.inr (Or.inr (Or.inr (Or.inr (Or.inr (Or.inr (Or.inr (Or.inr (Or.inr ⟨inp, hq⟩))))))))
    next hcnd3 =>
      exact hbase i hi

/-- C10: every create mutation and every update mutation issued by
`CreateAction` carries the title computed at its start: the configured
`spec.Title` whenever it is non-empty, and the report title otherwise, so
the configured title always takes precedence over the report title. -/
theorem createAction_title_precedence (p0 : PullRequest) (env : GithubEnv)
    (report : ReportAction) (resetDescription : Bool) :
    ∀ i ∈ (CreateAction p0 env report resetDescription).2,
      (∀ inp, i = Interaction.mutateCreatePullRequest inp →
        inp.Title = (if (p0.spec.Title != "") = true then p0.spec.Title else report.Title)) ∧
      (∀ inp, i = Interaction.mutateUpdatePullRequest inp →
        inp.Title = some (if (p0.spec.Title != "") = true then p0.spec.Title else report.Title)) := by
  intro i hi
  rcases createAction_trace_members p0 env report resetDescription i hi with
    h | ⟨o, n, b, hd, h⟩ | ⟨inp, h, htl⟩ | h | ⟨o, n, nb, c, h⟩ | ⟨inp, h, htl⟩ | ⟨d, h⟩ |
      ⟨d, b, h⟩ | ⟨o, n, h⟩ | ⟨inp, h⟩ <;>
    subst h <;>
    refine ⟨?_, ?_⟩ <;>
    intro inp2 hinp2 <;>
    first
      | (injection hinp2 with h2; subst h2; exact htl)
      | simp at hinp2

/-- Witness for C10: in a concrete full run that both creates and updates
the pull request, with an empty configured title, both mutation inputs carry
the report title Bump x to 2.0. -/
theorem createAction_title_precedence_witness :
    inpCreateEx.Title = "Bump x to 2.0" ∧ inpUpdateEx.Title = some "Bump x to 2.0" :=
  ⟨(createAction_title_precedence pStart envBase reportEx false
      (Interaction.mutateCreatePullRequest inpCreateEx) (by decide)).1 inpCreateEx rfl,
   (createAction_title_precedence pStart envBase reportEx false
      (Interaction.mutateUpdatePullRequest inpUpdateEx) (by decide)).2 inpUpdateEx rfl⟩

/-- Witness for C2: the spec's example, catalog of three labels, two desired
names, one attached label. -/
theorem updatePullRequest_label_set_union_witness :
    labelA ∈ mergeLabels (matchingLabels ["enhancement", "bug"] [labelA, labelB, labelC]) [labelA] ↔
      ((labelA ∈ [labelA, labelB, labelC] ∧ labelA.Name ∈ (["enhancement", "bug"] : List String)) ∨
        labelA ∈ [labelA]) :=
  updatePullRequest_label_set_union ["enhancement", "bug"] [labelA, labelB, labelC] [labelA] labelA

/-- Witness for C9: the empty merge method validates without error. -/
theorem newAction_merge_method_validation_witness :
    (NewAction specEx ghEx).2 = none ↔
      (specEx.MergeMethod = "" ∨ equalFold specEx.MergeMethod "squash" = true ∨
        equalFold specEx.MergeMethod "merge" = true ∨
        equalFold specEx.MergeMethod "rebase" = true) :=
  newAction_merge_method_validation specEx ghEx
